import Mathlib

/-!
Verification of the Atlas component lifecycle and focus-management subsystem
(casoon/atlas-demo).

This file gives a shallow embedding of the overlay components (modal, drawer,
dropdown), the focus trap, the scroll lock and the style manager from the
TypeScript sources, and proves the spec's claims about them.

Modelling conventions:
* DOM elements are identified by natural numbers.
* A JavaScript `Map` (iteration in insertion order, unique keys) and a
  `CSSStyleDeclaration` (property list with unique names) are both modelled as
  association lists with `alGet` / `alSet` / `alDelete`, where `alSet` updates
  an existing key in place and appends a fresh key at the end — exactly the
  `Map.set` / `setProperty` update discipline.
* The browser event loop is single threaded; async teardown (`setTimeout`
  inside `close()`) is modelled by splitting `close()` into its synchronous
  prefix and the timer callback.
-/

namespace Atlas

/-- Lookup in an association list (first entry whose key matches), the shallow
embedding of `Map.get` and `CSSStyleDeclaration.getPropertyValue`. -/
def alGet {κ ν : Type} [DecidableEq κ] (k : κ) : List (κ × ν) → Option ν
  | [] => none
  | (k', v') :: rest => if k' = k then some v' else alGet k rest

/-- Update-or-append in an association list: an existing key keeps its position
and gets the new value, a fresh key is appended at the end — the semantics of
`Map.set` and of `CSSStyleDeclaration.setProperty`. -/
def alSet {κ ν : Type} [DecidableEq κ] (k : κ) (v : ν) : List (κ × ν) → List (κ × ν)
  | [] => [(k, v)]
  | (k', v') :: rest => if k' = k then (k, v) :: rest else (k', v') :: alSet k v rest

/-- Remove the entry for a key, the semantics of `Map.delete` and of
`CSSStyleDeclaration.removeProperty`. -/
def alDelete {κ ν : Type} [DecidableEq κ] (k : κ) : List (κ × ν) → List (κ × ν)
  | [] => []
  | (k', v') :: rest => if k' = k then rest else (k', v') :: alDelete k rest

/-- Keys of an association list are pairwise distinct — the invariant that a
real `Map` or `CSSStyleDeclaration` maintains. -/
abbrev keyNodup {κ ν : Type} (l : List (κ × ν)) : Prop :=
  l.Pairwise (fun a b => a.1 ≠ b.1)

section AssocListLemmas

variable {κ ν : Type} [DecidableEq κ]

theorem alGet_alSet_self (k : κ) (v : ν) (l : List (κ × ν)) :
    alGet k (alSet k v l) = some v := by
  induction l with
  | nil => simp [alGet, alSet]
  | cons e rest ih =>
    rcases e with ⟨ek, ev⟩
    by_cases h : ek = k
    · simp [alSet, alGet, h]
    · simp [alSet, alGet, h, ih]

theorem alGet_alSet_ne (k k' : κ) (v : ν) (l : List (κ × ν)) (h : k' ≠ k) :
    alGet k' (alSet k v l) = alGet k' l := by
  have hkk : ¬ k = k' := fun hh => h hh.symm
  induction l with
  | nil => simp [alGet, alSet, hkk]
  | cons e rest ih =>
    rcases e with ⟨ek, ev⟩
    by_cases he : ek = k
    · subst he
      simp [alSet, alGet, hkk]
    · simp only [alSet, if_neg he, alGet]
      by_cases he' : ek = k'
      · simp [he']
      · simp [he', ih]

theorem alGet_alDelete_ne (k k' : κ) (l : List (κ × ν)) (h : k' ≠ k) :
    alGet k' (alDelete k l) = alGet k' l := by
  induction l with
  | nil => simp [alDelete]
  | cons e rest ih =>
    rcases e with ⟨ek, ev⟩
    by_cases he : ek = k
    · subst he
      have : ¬ ek = k' := fun hh => h (hh ▸ rfl)
      simp [alDelete, alGet, this]
    · simp only [alDelete, if_neg he, alGet]
      by_cases he' : ek = k'
      · simp [he']
      · simp [he', ih]

theorem alGet_eq_none_of_forall (k : κ) (l : List (κ × ν))
    (h : ∀ e ∈ l, e.1 ≠ k) : alGet k l = none := by
  induction l with
  | nil => rfl
  | cons e rest ih =>
    have h1 : e.1 ≠ k := h e (by simp)
    simp only [alGet, if_neg h1]
    exact ih (fun e' he' => h e' (by simp [he']))

theorem forall_of_alGet_eq_none (k : κ) (l : List (κ × ν))
    (h : alGet k l = none) : ∀ e ∈ l, e.1 ≠ k := by
  induction l with
  | nil => simp
  | cons e rest ih =>
    by_cases he : e.1 = k
    · simp [alGet, he] at h
    · simp only [alGet, if_neg he] at h
      intro e' he'
      rcases List.mem_cons.mp he' with h' | h'
      · subst h'; exact he
      · exact ih h e' h'

theorem alSet_of_alGet_none (k : κ) (v : ν) (l : List (κ × ν))
    (h : alGet k l = none) : alSet k v l = l ++ [(k, v)] := by
  induction l with
  | nil => rfl
  | cons e rest ih =>
    by_cases he : e.1 = k
    · simp [alGet, he] at h
    · simp only [alGet, if_neg he] at h
      rcases e with ⟨ek, ev⟩
      simp only [] at he
      simp [alSet, he, ih h]

theorem mem_alSet (k : κ) (v : ν) (l : List (κ × ν)) :
    ∀ e ∈ alSet k v l, e ∈ l ∨ e.1 = k := by
  induction l with
  | nil =>
    intro e he
    simp [alSet] at he
    right; rw [he]
  | cons f rest ih =>
    intro e he
    rcases f with ⟨fk, fv⟩
    by_cases hf : fk = k
    · simp only [alSet, if_pos hf] at he
      rcases List.mem_cons.mp he with h' | h'
      · right; rw [h']
      · left; exact List.mem_cons_of_mem _ h'
    · simp only [alSet, if_neg hf] at he
      rcases List.mem_cons.mp he with h' | h'
      · left; rw [h']; exact List.mem_cons_self _ _
      · rcases ih e h' with h'' | h''
        · left; exact List.mem_cons_of_mem _ h''
        · right; exact h''

theorem mem_alDelete (k : κ) (l : List (κ × ν)) :
    ∀ e ∈ alDelete k l, e ∈ l := by
  induction l with
  | nil => simp [alDelete]
  | cons f rest ih =>
    intro e he
    rcases f with ⟨fk, fv⟩
    by_cases hf : fk = k
    · simp only [alDelete, if_pos hf] at he
      exact List.mem_cons_of_mem _ he
    · simp only [alDelete, if_neg hf] at he
      rcases List.mem_cons.mp he with h' | h'
      · rw [h']; exact List.mem_cons_self _ _
      · exact List.mem_cons_of_mem _ (ih e h')

theorem keyNodup_alSet (k : κ) (v : ν) (l : List (κ × ν)) (h : keyNodup l) :
    keyNodup (alSet k v l) := by
  induction l with
  | nil => simp [alSet, keyNodup]
  | cons e rest ih =>
    rcases List.pairwise_cons.mp h with ⟨h1, h2⟩
    rcases e with ⟨ek, ev⟩
    by_cases he : ek = k
    · subst he
      simp only [alSet, if_pos rfl]
      exact List.pairwise_cons.mpr ⟨fun b hb => h1 b hb, h2⟩
    · simp only [alSet, if_neg he]
      refine List.pairwise_cons.mpr ⟨?_, ih h2⟩
      intro b hb
      rcases mem_alSet k v rest b hb with h' | h'
      · exact h1 b h'
      · rw [h']; exact he

theorem keyNodup_alDelete (k : κ) (l : List (κ × ν)) (h : keyNodup l) :
    keyNodup (alDelete k l) := by
  induction l with
  | nil => simp [alDelete, keyNodup]
  | cons e rest ih =>
    rcases List.pairwise_cons.mp h with ⟨h1, h2⟩
    rcases e with ⟨ek, ev⟩
    by_cases he : ek = k
    · simpa [alDelete, he] using h2
    · simp only [alDelete, if_neg he]
      refine List.pairwise_cons.mpr ⟨?_, ih h2⟩
      intro b hb
      exact h1 b (mem_alDelete k rest b hb)

theorem alGet_alDelete_self (k : κ) (l : List (κ × ν)) (h : keyNodup l) :
    alGet k (alDelete k l) = none := by
  induction l with
  | nil => rfl
  | cons e rest ih =>
    rcases List.pairwise_cons.mp h with ⟨h1, h2⟩
    rcases e with ⟨ek, ev⟩
    by_cases he : ek = k
    · subst he
      simp only [alDelete, if_pos rfl]
      exact alGet_eq_none_of_forall _ _ (fun e' he' => Ne.symm (h1 e' he'))
    · simp only [alDelete, if_neg he, alGet, if_neg he]
      exact ih h2

end AssocListLemmas

/-! ### StyleManager (`shared/style-manager.ts`)

`element.style` is modelled as an association list from CSS property names to
string values; an absent property reads as `""`, matching
`getPropertyValue`.  The document's inline styles are an association list from
element ids to styles.  The manager's `originalStyles` field
(`Map<HTMLElement, Map<string, string>>`) is an association list from element
ids to per-element records. -/

/-- Inline style declaration of one element: property name to value. -/
abbrev Style := List (String × String)

/-- Per-element record of original values (`Map<string, string>`). -/
abbrev StyleRecord := List (String × String)

/-- Inline styles of all elements in the document, keyed by element id. -/
abbrev DomStyles := List (Nat × Style)

/-- The `originalStyles` field of a `StyleManager`. -/
abbrev StyleMgr := List (Nat × StyleRecord)

/-- Embedding of `CSSStyleDeclaration.getPropertyValue`: the set value, or the
empty string when the property is not set. -/
def getPropertyValue (s : Style) (p : String) : String :=
  (alGet p s).getD ""

/-- Inline style of one element in the document (no inline entry reads as the
empty declaration). -/
def domGet (d : DomStyles) (el : Nat) : Style :=
  (alGet el d).getD []

/-- Embedding of `StyleManager.saveStyle`: create the per-element map if
missing, then record the current value of `property` unless the element's map
already has an entry for it (first write wins). -/
def saveStyle (m : StyleMgr) (d : DomStyles) (el : Nat) (p : String) : StyleMgr :=
  let m1 := if (alGet el m).isSome then m else alSet el [] m
  match alGet el m1 with
  | none => m1
  | some es =>
    if (alGet p es).isSome then m1
    else alSet el (alSet p (getPropertyValue (domGet d el) p) es) m1

/-- Embedding of `StyleManager.setStyle`: save the original value, then apply
the new one with `element.style.setProperty`. -/
def setStyle (m : StyleMgr) (d : DomStyles) (el : Nat) (p v : String) :
    StyleMgr × DomStyles :=
  let m' := saveStyle m d el p
  (m', alSet el (alSet p v (domGet d el)) d)

/-- One step of `restore`'s `forEach`: write the recorded original back,
removing the property when the recorded original was the empty string. -/
def restoreEntry (s : Style) (pv : String × String) : Style :=
  if pv.2 = "" then alDelete pv.1 s else alSet pv.1 pv.2 s

/-- Embedding of `StyleManager.restore`: write back every recorded original
value in insertion order, then drop the element's record. -/
def restore (m : StyleMgr) (d : DomStyles) (el : Nat) : StyleMgr × DomStyles :=
  match alGet el m with
  | none => (m, d)
  | some es =>
    ((alDelete el m), alSet el (es.foldl restoreEntry (domGet d el)) d)

section StyleManagerLemmas

/-- Applying restore entries whose keys avoid `p` leaves property `p` alone. -/
theorem alGet_foldl_restoreEntry_ne (p : String) (es : StyleRecord)
    (h : ∀ e ∈ es, e.1 ≠ p) :
    ∀ s : Style, alGet p (es.foldl restoreEntry s) = alGet p s := by
  induction es with
  | nil => intro s; rfl
  | cons e rest ih =>
    intro s
    have hep : e.1 ≠ p := h e (by simp)
    rw [List.foldl_cons, ih (fun e' he' => h e' (by simp [he']))]
    by_cases hv : e.2 = ""
    · simp only [restoreEntry, if_pos hv]
      exact alGet_alDelete_ne e.1 p s hep.symm
    · simp only [restoreEntry, if_neg hv]
      exact alGet_alSet_ne e.1 p e.2 s hep.symm

/-- Restore entries preserve distinctness of style property names. -/
theorem keyNodup_foldl_restoreEntry (es : StyleRecord) :
    ∀ s : Style, keyNodup s → keyNodup (es.foldl restoreEntry s) := by
  induction es with
  | nil => intro s hs; exact hs
  | cons e rest ih =>
    intro s hs
    rw [List.foldl_cons]
    refine ih _ ?_
    by_cases hv : e.2 = ""
    · simp only [restoreEntry, if_pos hv]
      exact keyNodup_alDelete e.1 s hs
    · simp only [restoreEntry, if_neg hv]
      exact keyNodup_alSet e.1 e.2 s hs

/-- Reading the element whose style was just written back. -/
theorem domGet_alSet (d : DomStyles) (el : Nat) (s : Style) :
    domGet (alSet el s d) el = s := by
  simp [domGet, alGet_alSet_self]

/-- After `saveStyle` on an (element, property) pair with no record yet, the
element's record is its old record with the pre-existing inline value of the
property appended. -/
theorem alGet_saveStyle (m : StyleMgr) (d : DomStyles) (el : Nat) (p : String)
    (hp : alGet p ((alGet el m).getD []) = none) :
    alGet el (saveStyle m d el p) =
      some (((alGet el m).getD []) ++ [(p, getPropertyValue (domGet d el) p)]) := by
  cases hget : alGet el m with
  | none =>
    simp only [hget, Option.getD_none] at hp ⊢
    simp only [saveStyle, hget, Option.isSome_none, Bool.false_eq_true, if_false,
      alGet_alSet_self]
    simp [alGet, alSet, alGet_alSet_self]
  | some es =>
    simp only [hget, Option.getD_some] at hp ⊢
    simp only [saveStyle, hget, Option.isSome_some, if_true, hp, Option.isSome_none,
      Bool.false_eq_true, if_false, alGet_alSet_self]
    rw [alSet_of_alGet_none p _ es hp]

/-- `saveStyle` is the identity when the element's record already has the
property. -/
theorem saveStyle_already (m : StyleMgr) (d : DomStyles) (el : Nat) (p : String)
    (es : StyleRecord) (hget : alGet el m = some es)
    (hhas : (alGet p es).isSome = true) : saveStyle m d el p = m := by
  simp [saveStyle, hget, hhas]

/-- `saveStyle` preserves distinctness of the manager's element keys. -/
theorem keyNodup_saveStyle (m : StyleMgr) (d : DomStyles) (el : Nat) (p : String)
    (hm : keyNodup m) : keyNodup (saveStyle m d el p) := by
  have hm1 : keyNodup (if (alGet el m).isSome then m else alSet el ([] : StyleRecord) m) := by
    split
    · exact hm
    · exact keyNodup_alSet el [] m hm
  simp only [saveStyle]
  cases halg : alGet el (if (alGet el m).isSome then m else alSet el ([] : StyleRecord) m) with
  | none => simpa [halg] using hm1
  | some es =>
    by_cases hps : (alGet p es).isSome
    · simpa [halg, hps] using hm1
    · simp only [halg, hps, Bool.false_eq_true, if_false]
      exact keyNodup_alSet _ _ _ hm1

/-- Applying `setStyle` twice on the same (element, property) pair; the state
whose manager and document the claims inspect. -/
def setTwiceState (m : StyleMgr) (d : DomStyles) (el : Nat) (p v1 v2 : String) :
    StyleMgr × DomStyles :=
  let md1 := setStyle m d el p v1
  setStyle md1.1 md1.2 el p v2

end StyleManagerLemmas

/-! ### FocusTrap (`shared/focus-trap.ts`)

The parts of the document the trap observes are the current active element,
the current list of focusable descendants of the container (what
`getFocusableElements(container)` returns at this instant), and whether a
document exists at all (`getDocument()`; in the browser it always does, the
`null` branch is the SSR guard).  Focusing an element is modelled as updating
`activeElement`.  Totality of the Lean functions reflects that the handlers
cannot throw. -/

/-- The `initialFocus` option: `'first'`, `'container'`, or an element. -/
inductive InitialFocus where
  | first : InitialFocus
  | container : InitialFocus
  | elem : Nat → InitialFocus
deriving DecidableEq

/-- The `returnFocus` option: `'previous'` or an explicit element. -/
inductive ReturnFocus where
  | previous : ReturnFocus
  | elem : Nat → ReturnFocus
deriving DecidableEq

/-- Embedding of `FocusTrapOptions`; `onEscape` records whether the caller
supplied the callback. -/
structure FocusTrapOptions where
  container : Nat
  initialFocus : InitialFocus := .first
  returnFocus : ReturnFocus := .previous
  onEscape : Bool := false
deriving DecidableEq

/-- The document state the trap interacts with. -/
structure TrapDom where
  docPresent : Bool := true
  activeElement : Nat
  focusables : List Nat
deriving DecidableEq

/-- The trap's mutable locals: `isActive`, `previouslyFocused`,
`focusableElements`, the cleanup-listener list (modelled by its length) and
whether the trap added `tabindex="-1"` to the container. -/
structure TrapState where
  isActive : Bool := false
  previouslyFocused : Option Nat := none
  focusableElements : List Nat := []
  listenerCount : Nat := 0
  containerTabindexSet : Bool := false
deriving DecidableEq

/-- Embedding of `element.focus()`: the element becomes the active element. -/
def focusElem (d : TrapDom) (e : Nat) : TrapDom :=
  { d with activeElement := e }

/-- Result of delivering one keydown to the trap's document-level handler. -/
structure KeyOutcome where
  state : TrapState
  dom : TrapDom
  defaultPrevented : Bool
  escapeInvoked : Bool
deriving DecidableEq

/-- A keyboard event as the handler reads it. -/
structure KeyEvent where
  key : String
  shiftKey : Bool
deriving DecidableEq

/-- Embedding of the trap's `handleKeyDown`.  On `Tab` it first re-snapshots
the focusable list (`updateElements()`), swallows the key when the list is
empty, and otherwise wraps focus from the last element to the first (plain
Tab) or from the first element or the container to the last (Shift+Tab). -/
def handleKeyDown (o : FocusTrapOptions) (st : TrapState) (d : TrapDom)
    (e : KeyEvent) : KeyOutcome :=
  if st.isActive = false then ⟨st, d, false, false⟩
  else if e.key = "Escape" then ⟨st, d, true, o.onEscape⟩
  else if e.key = "Tab" then
    let st1 : TrapState := { st with focusableElements := d.focusables }
    match d.focusables with
    | [] => ⟨st1, d, true, false⟩
    | a :: as =>
      let firstElement := a
      let lastElement := (a :: as).getLast (List.cons_ne_nil a as)
      if d.docPresent = false then ⟨st1, d, false, false⟩
      else if e.shiftKey then
        if d.activeElement = firstElement ∨ d.activeElement = o.container then
          ⟨st1, focusElem d lastElement, true, false⟩
        else ⟨st1, d, false, false⟩
      else
        if d.activeElement = lastElement then
          ⟨st1, focusElem d firstElement, true, false⟩
        else ⟨st1, d, false, false⟩
  else ⟨st, d, false, false⟩

/-- Embedding of `activate`'s synchronous body: a no-op when already active;
otherwise flip `isActive`, snapshot `document.activeElement` as the return
target, snapshot the focusable list, register the two listeners, and queue the
initial-focus `requestAnimationFrame` callback (the returned flag). -/
def activate (st : TrapState) (d : TrapDom) : TrapState × Bool :=
  if st.isActive then (st, false)
  else
    let st1 : TrapState := { st with isActive := true }
    if d.docPresent = false then (st1, false)
    else
      ({ st1 with
          previouslyFocused := some d.activeElement,
          focusableElements := d.focusables,
          listenerCount := st1.listenerCount + 2 }, true)

/-- Embedding of the `requestAnimationFrame` callback queued by `activate`:
apply the `initialFocus` policy using the snapshotted focusable list. -/
def rafInitialFocus (o : FocusTrapOptions) (st : TrapState) (d : TrapDom) :
    TrapState × TrapDom :=
  match o.initialFocus with
  | .first =>
    match st.focusableElements with
    | [] => (st, d)
    | a :: _ => (st, focusElem d a)
  | .container => ({ st with containerTabindexSet := true }, focusElem d o.container)
  | .elem e => (st, focusElem d e)

/-- Embedding of `deactivate`: a no-op when inactive; otherwise remove the
listeners, drop any `tabindex` the trap added, return focus per the
`returnFocus` policy, and clear the stored return target. -/
def deactivate (o : FocusTrapOptions) (st : TrapState) (d : TrapDom) :
    TrapState × TrapDom :=
  if st.isActive = false then (st, d)
  else
    let st1 : TrapState :=
      { st with isActive := false, listenerCount := 0, containerTabindexSet := false }
    let d1 : TrapDom :=
      match o.returnFocus with
      | .previous =>
        match st1.previouslyFocused with
        | some e => focusElem d e
        | none => d
      | .elem t => focusElem d t
    ({ st1 with previouslyFocused := none }, d1)

/-! ### ScrollLock (`shared/dom.ts`, `lockScroll`)

The page state the lock touches is `window.scrollY` and the body's full inline
style string (`body.style.cssText`).  `lockScroll` captures both, pins the
body, and returns an unlock closure; the closure's captured data is the
`ScrollSaved` value and applying it is `applyUnlock`. -/

/-- The page state read and written by `lockScroll`. -/
structure PageState where
  scrollY : Nat
  bodyCssText : String
deriving DecidableEq

/-- The data captured by `lockScroll`'s closure: `scrollY` and
`originalStyle`. -/
structure ScrollSaved where
  scrollY : Nat
  originalStyle : String
deriving DecidableEq

/-- The template literal assigned to `body.style.cssText` to pin the body at
the captured scroll offset. -/
def pinnedBodyCss (y : Nat) : String :=
  "\n    position: fixed;\n    top: -" ++ toString y ++
    "px;\n    left: 0;\n    right: 0;\n    overflow: hidden;\n  "

/-- Embedding of `lockScroll`: capture `window.scrollY` and
`body.style.cssText`, then overwrite the body's inline style with the pinning
declaration.  Returns the captured data and the new page state. -/
def lockScroll (p : PageState) : ScrollSaved × PageState :=
  let saved : ScrollSaved := { scrollY := p.scrollY, originalStyle := p.bodyCssText }
  (saved, { p with bodyCssText := pinnedBodyCss p.scrollY })

/-- Embedding of the unlock closure returned by `lockScroll`: restore the
saved `cssText`, then `window.scrollTo(0, scrollY)`. -/
def applyUnlock (sv : ScrollSaved) (_p : PageState) : PageState :=
  { bodyCssText := sv.originalStyle, scrollY := sv.scrollY }

/-! ### Modal (`components/modal/index.ts`)

The modal's closure-captured locals are `isOpen`, `backdropElement`,
`unlockScroll` (modelled as the flag `scrollLocked`), the focus trap's active
flag, and `cleanupListeners` (modelled by which listeners are attached).
Backdrop nodes get fresh ids from a counter; `docBackdrops` is the list of
backdrop nodes currently attached to `document.body`.  `close()` is async: its
synchronous prefix is `closeStartM`, the `setTimeout` callback that fires
`duration` ms later is `closeFinishM`, and an awaited-to-completion `close()`
is `closeM`. -/

/-- The modal options consulted by the lifecycle code (animation timing and
ARIA strings do not affect the claims' state machine). -/
structure ModalOptions where
  backdrop : Bool := true
  closeOnBackdrop : Bool := true
  closeOnEscape : Bool := true
  trapFocus : Bool := true
deriving DecidableEq

/-- The modal's mutable state. -/
structure ModalState where
  isOpen : Bool := false
  backdropElement : Option Nat := none
  docBackdrops : List Nat := []
  nextBackdropId : Nat := 0
  docEscListener : Bool := false
  backdropClickListener : Bool := false
  trapActive : Bool := false
  scrollLocked : Bool := false
  closePending : Bool := false
deriving DecidableEq

/-- State right after `createModal` returns. -/
def initModal : ModalState := {}

/-- Embedding of the modal's `open()`: no-op when already open; otherwise flip
`isOpen`, lock scroll, create and append the backdrop (wiring the
backdrop-click listener when configured), register the document Escape
listener only when `closeOnEscape && !trapFocus`, and activate the focus
trap. -/
def openM (o : ModalOptions) (s : ModalState) : ModalState :=
  if s.isOpen then s
  else
    let s1 : ModalState := { s with isOpen := true, scrollLocked := true }
    let s2 : ModalState :=
      if o.backdrop then
        { s1 with
            backdropElement := some s1.nextBackdropId,
            docBackdrops := s1.docBackdrops ++ [s1.nextBackdropId],
            nextBackdropId := s1.nextBackdropId + 1,
            backdropClickListener := o.closeOnBackdrop || s1.backdropClickListener }
      else s1
    let s3 : ModalState :=
      if o.closeOnEscape && !o.trapFocus then { s2 with docEscListener := true } else s2
    if o.trapFocus then { s3 with trapActive := true } else s3

/-- Embedding of the synchronous prefix of the modal's `close()`: no-op when
already closed; otherwise flip `isOpen` at once, deactivate the focus trap
first, and start the exit animation timer. -/
def closeStartM (o : ModalOptions) (s : ModalState) : ModalState :=
  if s.isOpen = false then s
  else
    { s with
        isOpen := false,
        trapActive := if o.trapFocus then false else s.trapActive,
        closePending := true }

/-- Embedding of the timer callback at the end of the modal's `close()`: hide
the modal, remove the backdrop node and drop the reference, tear down the
listeners registered in `open()`, and unlock scroll. -/
def closeFinishM (s : ModalState) : ModalState :=
  { s with
      docBackdrops :=
        match s.backdropElement with
        | some id => s.docBackdrops.erase id
        | none => s.docBackdrops,
      backdropElement := none,
      docEscListener := false,
      backdropClickListener := false,
      scrollLocked := false,
      closePending := false }

/-- The modal's `close()` awaited to completion (prefix plus timer). -/
def closeM (o : ModalOptions) (s : ModalState) : ModalState :=
  if s.isOpen then closeFinishM (closeStartM o s) else s

/-- Embedding of the modal's `destroy()`: when open it deactivates the trap,
hides the modal, detaches the backdrop node and the listeners and unlocks
scroll — all synchronously, with no animation timer.  Note that, as in the
source, it neither resets `isOpen` nor clears the `backdropElement`
reference. -/
def destroyM (o : ModalOptions) (s : ModalState) : ModalState :=
  if s.isOpen then
    { s with
        trapActive := if o.trapFocus then false else s.trapActive,
        docBackdrops :=
          match s.backdropElement with
          | some id => s.docBackdrops.erase id
          | none => s.docBackdrops,
        docEscListener := false,
        backdropClickListener := false,
        scrollLocked := false }
  else s

/-- Number of `close()` invocations triggered by one Escape keydown delivered
to the document while the modal is in state `s`.  Document keydown listeners
run in registration order: the modal's own `handleEscapeKey` (registered in
`open()` when present) fires first — its guard is
`closeOnEscape && key === 'Escape' && isOpen` — and each `close()` entry
synchronously runs `closeStartM`; then the trap's `handleKeyDown` fires and
invokes its `onEscape` callback (installed iff `closeOnEscape`, given the trap
exists iff `trapFocus`) when the trap is still active. -/
def escapeCloseCalls (o : ModalOptions) (s : ModalState) : Nat :=
  let docFires := s.docEscListener && o.closeOnEscape && s.isOpen
  let s1 := if docFires then closeStartM o s else s
  let trapFires := s1.trapActive && o.trapFocus && o.closeOnEscape
  (if docFires then 1 else 0) + (if trapFires then 1 else 0)

/-- States reachable from `createModal` by complete public operations: each
`close()` awaited to completion before the next call (the overlap of a pending
close with a re-entrant `open()` is a known hazard outside every claim's
quiescent reading). -/
inductive ModalReach (o : ModalOptions) : ModalState → Prop where
  | init : ModalReach o initModal
  | openStep {s} : ModalReach o s → ModalReach o (openM o s)
  | closeStep {s} : ModalReach o s → ModalReach o (closeM o s)
  | destroyStep {s} : ModalReach o s → ModalReach o (destroyM o s)

/-- Invariant of quiescent modal states: the backdrop reference is held iff
the modal is open with a backdrop configured; the document contains either
exactly the referenced backdrop node or none; with a focus trap installed the
document-level Escape listener is never registered. -/
def modalInv (o : ModalOptions) (s : ModalState) : Prop :=
  (s.backdropElement ≠ none ↔ (s.isOpen = true ∧ o.backdrop = true)) ∧
  (s.docBackdrops = s.backdropElement.toList ∨ s.docBackdrops = []) ∧
  (o.trapFocus = true → s.docEscListener = false)

section ModalInvariant

theorem modalInv_init (o : ModalOptions) : modalInv o initModal := by
  simp [modalInv, initModal]

theorem modalInv_open (o : ModalOptions) (s : ModalState) (h : modalInv o s) :
    modalInv o (openM o s) := by
  cases hs : s.isOpen with
  | true => simpa [openM, hs] using h
  | false =>
    rcases h with ⟨h1, h2, h3⟩
    have hbd : s.backdropElement = none := by
      by_contra hne
      exact absurd (h1.mp hne).1 (by simp [hs])
    have hdoc : s.docBackdrops = [] := by
      rcases h2 with h2 | h2
      · rw [h2, hbd]; rfl
      · exact h2
    cases hb : o.backdrop <;> cases ht : o.trapFocus <;> cases hc : o.closeOnEscape <;>
      simp_all [openM, modalInv, hs, hb, ht, hc, hbd, hdoc]

theorem modalInv_close (o : ModalOptions) (s : ModalState) (h : modalInv o s) :
    modalInv o (closeM o s) := by
  cases hs : s.isOpen with
  | false => simpa [closeM, hs] using h
  | true =>
    rcases h with ⟨h1, h2, h3⟩
    cases hbd : s.backdropElement with
    | none =>
      have hdoc : s.docBackdrops = [] := by
        rcases h2 with h2 | h2
        · rw [h2, hbd]; rfl
        · exact h2
      simp_all [closeM, closeStartM, closeFinishM, modalInv, hs, hbd, hdoc]
    | some id =>
      rcases h2 with h2 | h2 <;>
        simp_all [closeM, closeStartM, closeFinishM, modalInv, hs, hbd, h2]

theorem modalInv_destroy (o : ModalOptions) (s : ModalState) (h : modalInv o s) :
    modalInv o (destroyM o s) := by
  cases hs : s.isOpen with
  | false => simpa [destroyM, hs] using h
  | true =>
    rcases h with ⟨h1, h2, h3⟩
    cases hbd : s.backdropElement with
    | none =>
      have hdoc : s.docBackdrops = [] := by
        rcases h2 with h2 | h2
        · rw [h2, hbd]; rfl
        · exact h2
      simp_all [destroyM, modalInv, hs, hbd, hdoc]
    | some id =>
      rcases h2 with h2 | h2 <;>
        simp_all [destroyM, modalInv, hs, hbd, h2]

theorem modalInv_reach (o : ModalOptions) (s : ModalState) (h : ModalReach o s) :
    modalInv o s := by
  induction h with
  | init => exact modalInv_init o
  | openStep _ ih => exact modalInv_open o _ ih
  | closeStep _ ih => exact modalInv_close o _ ih
  | destroyStep _ ih => exact modalInv_destroy o _ ih

end ModalInvariant

/-! ### Drawer (`components/drawer/index.ts`)

Same lifecycle shape as the modal, with two differences that matter here: the
focus trap is activated 50 ms after `open()` via `setTimeout` (modelled by the
`trapTimerPending` flag and a separate timer step), and the element slides
instead of scaling.  As in the modal, `destroy()` neither resets `isOpen` nor
clears the `backdropElement` reference. -/

/-- The side the drawer slides in from. -/
inductive DrawerSide where
  | left : DrawerSide
  | right : DrawerSide
  | top : DrawerSide
  | bottom : DrawerSide
deriving DecidableEq

/-- The drawer options consulted by the lifecycle code. -/
structure DrawerOptions where
  side : DrawerSide := .right
  backdrop : Bool := true
  closeOnBackdrop : Bool := true
  closeOnEscape : Bool := true
  trapFocus : Bool := true
deriving DecidableEq

/-- The drawer's mutable state. -/
structure DrawerState where
  isOpen : Bool := false
  backdropElement : Option Nat := none
  docBackdrops : List Nat := []
  nextBackdropId : Nat := 0
  docEscListener : Bool := false
  backdropClickListener : Bool := false
  trapActive : Bool := false
  trapTimerPending : Bool := false
  scrollLocked : Bool := false
  closePending : Bool := false
deriving DecidableEq

/-- State right after `createDrawer` returns. -/
def initDrawer : DrawerState := {}

/-- Embedding of the drawer's `open()`: as the modal's, except the focus trap
is activated from a 50 ms `setTimeout` rather than synchronously. -/
def openD (o : DrawerOptions) (s : DrawerState) : DrawerState :=
  if s.isOpen then s
  else
    let s1 : DrawerState := { s with isOpen := true, scrollLocked := true }
    let s2 : DrawerState :=
      if o.backdrop then
        { s1 with
            backdropElement := some s1.nextBackdropId,
            docBackdrops := s1.docBackdrops ++ [s1.nextBackdropId],
            nextBackdropId := s1.nextBackdropId + 1,
            backdropClickListener := o.closeOnBackdrop || s1.backdropClickListener }
      else s1
    let s3 : DrawerState :=
      if o.closeOnEscape && !o.trapFocus then { s2 with docEscListener := true } else s2
    { s3 with trapTimerPending := true }

/-- Embedding of the drawer's trap-activation timer firing 50 ms after
`open()`: `focusTrap?.activate()`. -/
def trapTimerD (o : DrawerOptions) (s : DrawerState) : DrawerState :=
  if s.trapTimerPending then
    { s with
        trapTimerPending := false,
        trapActive := if o.trapFocus then true else s.trapActive }
  else s

/-- Embedding of the synchronous prefix of the drawer's `close()`. -/
def closeStartD (o : DrawerOptions) (s : DrawerState) : DrawerState :=
  if s.isOpen = false then s
  else
    { s with
        isOpen := false,
        trapActive := if o.trapFocus then false else s.trapActive,
        closePending := true }

/-- Embedding of the timer callback at the end of the drawer's `close()`. -/
def closeFinishD (s : DrawerState) : DrawerState :=
  { s with
      docBackdrops :=
        match s.backdropElement with
        | some id => s.docBackdrops.erase id
        | none => s.docBackdrops,
      backdropElement := none,
      docEscListener := false,
      backdropClickListener := false,
      scrollLocked := false,
      closePending := false }

/-- The drawer's `close()` awaited to completion. -/
def closeD (o : DrawerOptions) (s : DrawerState) : DrawerState :=
  if s.isOpen then closeFinishD (closeStartD o s) else s

/-- Embedding of the drawer's `destroy()`: synchronous unanimated teardown of
the trap, backdrop node, listeners and scroll lock; as in the source it
neither resets `isOpen` nor clears the `backdropElement` reference. -/
def destroyD (o : DrawerOptions) (s : DrawerState) : DrawerState :=
  if s.isOpen then
    { s with
        trapActive := if o.trapFocus then false else s.trapActive,
        docBackdrops :=
          match s.backdropElement with
          | some id => s.docBackdrops.erase id
          | none => s.docBackdrops,
        docEscListener := false,
        backdropClickListener := false,
        scrollLocked := false }
  else s

/-- States reachable from `createDrawer` by complete public operations plus
the trap-activation timer. -/
inductive DrawerReach (o : DrawerOptions) : DrawerState → Prop where
  | init : DrawerReach o initDrawer
  | openStep {s} : DrawerReach o s → DrawerReach o (openD o s)
  | trapTimerStep {s} : DrawerReach o s → DrawerReach o (trapTimerD o s)
  | closeStep {s} : DrawerReach o s → DrawerReach o (closeD o s)
  | destroyStep {s} : DrawerReach o s → DrawerReach o (destroyD o s)

/-- Quiescent drawer invariant, mirroring `modalInv`. -/
def drawerInv (o : DrawerOptions) (s : DrawerState) : Prop :=
  (s.backdropElement ≠ none ↔ (s.isOpen = true ∧ o.backdrop = true)) ∧
  (s.docBackdrops = s.backdropElement.toList ∨ s.docBackdrops = [])

section DrawerInvariant

theorem drawerInv_init (o : DrawerOptions) : drawerInv o initDrawer := by
  simp [drawerInv, initDrawer]

theorem drawerInv_open (o : DrawerOptions) (s : DrawerState) (h : drawerInv o s) :
    drawerInv o (openD o s) := by
  cases hs : s.isOpen with
  | true => simpa [openD, hs] using h
  | false =>
    rcases h with ⟨h1, h2⟩
    have hbd : s.backdropElement = none := by
      by_contra hne
      exact absurd (h1.mp hne).1 (by simp [hs])
    have hdoc : s.docBackdrops = [] := by
      rcases h2 with h2 | h2
      · rw [h2, hbd]; rfl
      · exact h2
    cases hb : o.backdrop <;> cases ht : o.trapFocus <;> cases hc : o.closeOnEscape <;>
      simp_all [openD, drawerInv, hs, hb, ht, hc, hbd, hdoc]

theorem drawerInv_trapTimer (o : DrawerOptions) (s : DrawerState) (h : drawerInv o s) :
    drawerInv o (trapTimerD o s) := by
  cases hp : s.trapTimerPending <;> simp_all [trapTimerD, drawerInv, hp]

theorem drawerInv_close (o : DrawerOptions) (s : DrawerState) (h : drawerInv o s) :
    drawerInv o (closeD o s) := by
  cases hs : s.isOpen with
  | false => simpa [closeD, hs] using h
  | true =>
    rcases h with ⟨h1, h2⟩
    cases hbd : s.backdropElement with
    | none =>
      have hdoc : s.docBackdrops = [] := by
        rcases h2 with h2 | h2
        · rw [h2, hbd]; rfl
        · exact h2
      simp_all [closeD, closeStartD, closeFinishD, drawerInv, hs, hbd, hdoc]
    | some id =>
      rcases h2 with h2 | h2 <;>
        simp_all [closeD, closeStartD, closeFinishD, drawerInv, hs, hbd, h2]

theorem drawerInv_destroy (o : DrawerOptions) (s : DrawerState) (h : drawerInv o s) :
    drawerInv o (destroyD o s) := by
  cases hs : s.isOpen with
  | false => simpa [destroyD, hs] using h
  | true =>
    rcases h with ⟨h1, h2⟩
    cases hbd : s.backdropElement with
    | none =>
      have hdoc : s.docBackdrops = [] := by
        rcases h2 with h2 | h2
        · rw [h2, hbd]; rfl
        · exact h2
      simp_all [destroyD, drawerInv, hs, hbd, hdoc]
    | some id =>
      rcases h2 with h2 | h2 <;>
        simp_all [destroyD, drawerInv, hs, hbd, h2]

theorem drawerInv_reach (o : DrawerOptions) (s : DrawerState) (h : DrawerReach o s) :
    drawerInv o s := by
  induction h with
  | init => exact drawerInv_init o
  | openStep _ ih => exact drawerInv_open o _ ih
  | trapTimerStep _ ih => exact drawerInv_trapTimer o _ ih
  | closeStep _ ih => exact drawerInv_close o _ ih
  | destroyStep _ ih => exact drawerInv_destroy o _ ih

end DrawerInvariant

/-! ### Dropdown (`components/dropdown/index.ts`)

The dropdown keeps its own roving-focus index instead of a focus trap.
`menuItems` is modelled by the number of enabled menu items found by
`updateMenuItems()`; `focusedIndex` is the raw `number` local (−1 means "no
item focused"). -/

/-- The dropdown's mutable state relevant to roving focus. -/
structure DropdownState where
  isOpen : Bool := false
  focusedIndex : Int := -1
  menuItems : Nat := 0
deriving DecidableEq

/-- State right after `createDropdown` returns. -/
def initDropdown : DropdownState := {}

/-- Embedding of the dropdown's `focusItem(index)`: a no-op on an empty item
list; otherwise wrap a negative index to the last item and an index past the
end to the first, then record it as the focused index. -/
def focusItem (s : DropdownState) (index : Int) : DropdownState :=
  if s.menuItems = 0 then s
  else
    let i1 : Int := if index < 0 then (s.menuItems : Int) - 1 else index
    let i2 : Int := if i1 ≥ (s.menuItems : Int) then 0 else i1
    { s with focusedIndex := i2 }

/-- Embedding of the dropdown's `open()` (the state-machine part): no-op when
already open; otherwise re-scan the enabled menu items (`updateMenuItems`,
finding `domItems` of them) and reset the focused index to −1. -/
def openDrop (domItems : Nat) (s : DropdownState) : DropdownState :=
  if s.isOpen then s
  else { s with isOpen := true, menuItems := domItems, focusedIndex := -1 }

/-- Embedding of the arrow-navigation branches of the dropdown's
`handleMenuKeyDown` (`ArrowDown`, `ArrowUp`, `Home`, `End`; the remaining
branches select an item or close the menu and are not needed here). -/
def menuNavKey (s : DropdownState) (key : String) : DropdownState :=
  if key = "ArrowDown" then focusItem s (s.focusedIndex + 1)
  else if key = "ArrowUp" then focusItem s (s.focusedIndex - 1)
  else if key = "Home" then focusItem s 0
  else if key = "End" then focusItem s ((s.menuItems : Int) - 1)
  else s

/-! ### Claim theorems -/

/-- C3: while a trap is active over a container with at least one focusable
descendant, a Tab keydown from the last focusable element is prevented and
moves focus to the first; a Shift+Tab keydown from the first focusable element
or the container is prevented and moves focus to the last; Tab keydowns from
any other position are left to default handling (no prevention, no focus
move). -/
theorem tab_cycling_spec (o : FocusTrapOptions) (st : TrapState) (d : TrapDom)
    (shift : Bool) (ha : st.isActive = true) (hdoc : d.docPresent = true)
    (hne : d.focusables ≠ []) :
    (shift = false → d.activeElement = d.focusables.getLast hne →
      (handleKeyDown o st d ⟨"Tab", shift⟩).defaultPrevented = true ∧
      (handleKeyDown o st d ⟨"Tab", shift⟩).dom.activeElement = d.focusables.head hne) ∧
    (shift = true →
      (d.activeElement = d.focusables.head hne ∨ d.activeElement = o.container) →
      (handleKeyDown o st d ⟨"Tab", shift⟩).defaultPrevented = true ∧
      (handleKeyDown o st d ⟨"Tab", shift⟩).dom.activeElement = d.focusables.getLast hne) ∧
    (shift = false → d.activeElement ≠ d.focusables.getLast hne →
      (handleKeyDown o st d ⟨"Tab", shift⟩).defaultPrevented = false ∧
      (handleKeyDown o st d ⟨"Tab", shift⟩).dom = d) ∧
    (shift = true → d.activeElement ≠ d.focusables.head hne →
      d.activeElement ≠ o.container →
      (handleKeyDown o st d ⟨"Tab", shift⟩).defaultPrevented = false ∧
      (handleKeyDown o st d ⟨"Tab", shift⟩).dom = d) := by
  have hke : ("Tab" : String) ≠ "Escape" := by decide
  rcases d with ⟨dp, ae, fl⟩
  rcases fl with _ | ⟨a, as⟩
  · exact absurd rfl hne
  · simp only [TrapDom.docPresent] at hdoc
    subst hdoc
    refine ⟨?_, ?_, ?_, ?_⟩
    · intro hsh hae
      subst hsh
      simp only [TrapDom.activeElement] at hae
      simp [handleKeyDown, ha, hke, focusElem, hae]
    · intro hsh hae
      subst hsh
      simp only [TrapDom.activeElement, TrapDom.focusables, List.head_cons] at hae
      rcases hae with hae | hae <;> simp [handleKeyDown, ha, hke, focusElem, hae]
    · intro hsh hae
      subst hsh
      simp only [TrapDom.activeElement, TrapDom.focusables] at hae ⊢
      simp [handleKeyDown, ha, hke, focusElem, hae]
    · intro hsh hae1 hae2
      subst hsh
      simp only [TrapDom.activeElement, TrapDom.focusables, List.head_cons]
        at hae1 hae2 ⊢
      simp [handleKeyDown, ha, hke, focusElem, hae1, hae2]

/-- Closed witness for `tab_cycling_spec`: a trap over container 9 with
focusables `[1, 2, 3]`, active element 3 (the last one), plain Tab. -/
theorem tab_cycling_spec_witness :
    ((false : Bool) = false →
      (3 : Nat) = ([1, 2, 3] : List Nat).getLast (by decide) →
      (handleKeyDown { container := 9 } { isActive := true }
        ⟨true, 3, [1, 2, 3]⟩ ⟨"Tab", false⟩).defaultPrevented = true ∧
      (handleKeyDown { container := 9 } { isActive := true }
        ⟨true, 3, [1, 2, 3]⟩ ⟨"Tab", false⟩).dom.activeElement
        = ([1, 2, 3] : List Nat).head (by decide)) ∧
    ((false : Bool) = true →
      ((3 : Nat) = ([1, 2, 3] : List Nat).head (by decide) ∨ (3 : Nat) = 9) →
      (handleKeyDown { container := 9 } { isActive := true }
        ⟨true, 3, [1, 2, 3]⟩ ⟨"Tab", false⟩).defaultPrevented = true ∧
      (handleKeyDown { container := 9 } { isActive := true }
        ⟨true, 3, [1, 2, 3]⟩ ⟨"Tab", false⟩).dom.activeElement
        = ([1, 2, 3] : List Nat).getLast (by decide)) ∧
    ((false : Bool) = false → (3 : Nat) ≠ ([1, 2, 3] : List Nat).getLast (by decide) →
      (handleKeyDown { container := 9 } { isActive := true }
        ⟨true, 3, [1, 2, 3]⟩ ⟨"Tab", false⟩).defaultPrevented = false ∧
      (handleKeyDown { container := 9 } { isActive := true }
        ⟨true, 3, [1, 2, 3]⟩ ⟨"Tab", false⟩).dom = ⟨true, 3, [1, 2, 3]⟩) ∧
    ((false : Bool) = true → (3 : Nat) ≠ ([1, 2, 3] : List Nat).head (by decide) →
      (3 : Nat) ≠ 9 →
      (handleKeyDown { container := 9 } { isActive := true }
        ⟨true, 3, [1, 2, 3]⟩ ⟨"Tab", false⟩).defaultPrevented = false ∧
      (handleKeyDown { container := 9 } { isActive := true }
        ⟨true, 3, [1, 2, 3]⟩ ⟨"Tab", false⟩).dom = ⟨true, 3, [1, 2, 3]⟩) :=
  tab_cycling_spec { container := 9 } { isActive := true } ⟨true, 3, [1, 2, 3]⟩
    false rfl rfl (by decide)

/-- C8: while a trap is active over a container with no focusable descendants,
a Tab keydown (with or without Shift) is swallowed: default prevented, the
document untouched (focus unchanged), `onEscape` not invoked, and the
re-snapshotted focusable list empty.  `handleKeyDown` being a total function
reflects that the handler cannot throw. -/
theorem empty_trap_swallows_tab (o : FocusTrapOptions) (st : TrapState)
    (d : TrapDom) (shift : Bool) (ha : st.isActive = true)
    (hempty : d.focusables = []) :
    (handleKeyDown o st d ⟨"Tab", shift⟩).defaultPrevented = true ∧
    (handleKeyDown o st d ⟨"Tab", shift⟩).dom = d ∧
    (handleKeyDown o st d ⟨"Tab", shift⟩).escapeInvoked = false ∧
    (handleKeyDown o st d ⟨"Tab", shift⟩).state.focusableElements = [] := by
  have hke : ("Tab" : String) ≠ "Escape" := by decide
  rcases d with ⟨dp, ae, fl⟩
  simp only [TrapDom.focusables] at hempty
  subst hempty
  simp [handleKeyDown, ha, hke]

/-- Closed witness for `empty_trap_swallows_tab`. -/
theorem empty_trap_swallows_tab_witness :
    (handleKeyDown { container := 7 } { isActive := true }
      ⟨true, 0, []⟩ ⟨"Tab", true⟩).defaultPrevented = true ∧
    (handleKeyDown { container := 7 } { isActive := true }
      ⟨true, 0, []⟩ ⟨"Tab", true⟩).dom = ⟨true, 0, []⟩ ∧
    (handleKeyDown { container := 7 } { isActive := true }
      ⟨true, 0, []⟩ ⟨"Tab", true⟩).escapeInvoked = false ∧
    (handleKeyDown { container := 7 } { isActive := true }
      ⟨true, 0, []⟩ ⟨"Tab", true⟩).state.focusableElements = [] :=
  empty_trap_swallows_tab { container := 7 } { isActive := true } ⟨true, 0, []⟩
    true rfl rfl

/-- C4: for any element E active when `activate()` runs on a trap configured
with `returnFocus: 'previous'`, a later `deactivate()` with no intervening
change to the stored return target moves focus back to E — whether or not the
queued initial-focus animation frame ran in between — and `deactivate()` on an
inactive trap is a no-op. -/
theorem return_focus_spec (o : FocusTrapOptions) (st : TrapState) (d : TrapDom)
    (raf : Bool) (hret : o.returnFocus = .previous) (hinact : st.isActive = false)
    (hdoc : d.docPresent = true) :
    ((deactivate o
        (if raf then (rafInitialFocus o (activate st d).1 d).1 else (activate st d).1)
        (if raf then (rafInitialFocus o (activate st d).1 d).2 else d)).2).activeElement
      = d.activeElement ∧
    (∀ (st' : TrapState) (d' : TrapDom), st'.isActive = false →
      deactivate o st' d' = (st', d')) := by
  constructor
  · rcases d with ⟨dp, ae, fl⟩
    simp only [TrapDom.docPresent] at hdoc
    subst hdoc
    cases raf with
    | false =>
      simp [activate, deactivate, hinact, hret, focusElem]
    | true =>
      rcases hif : o.initialFocus with _ | _ | e <;>
        rcases fl with _ | ⟨a, as⟩ <;>
        simp [activate, rafInitialFocus, deactivate, hinact, hret, hif, focusElem]
  · intro st' d' h'
    simp [deactivate, h']

/-- Closed witness for `return_focus_spec`: element 42 is focused when a fresh
trap over container 5 with focusables `[1, 2]` activates; the animation frame
fires, then `deactivate()` returns focus to 42. -/
theorem return_focus_spec_witness :
    ((deactivate { container := 5 }
        (if true then
          (rafInitialFocus { container := 5 }
            (activate {} ⟨true, 42, [1, 2]⟩).1 ⟨true, 42, [1, 2]⟩).1
         else (activate {} ⟨true, 42, [1, 2]⟩).1)
        (if true then
          (rafInitialFocus { container := 5 }
            (activate {} ⟨true, 42, [1, 2]⟩).1 ⟨true, 42, [1, 2]⟩).2
         else ⟨true, 42, [1, 2]⟩)).2).activeElement = (42 : Nat) ∧
    (∀ (st' : TrapState) (d' : TrapDom), st'.isActive = false →
      deactivate { container := 5 } st' d' = (st', d')) :=
  return_focus_spec { container := 5 } {} ⟨true, 42, [1, 2]⟩ true rfl rfl rfl

/-- C10 (implicit): on every Tab keydown the active trap re-snapshots the
focusable list from the container's current DOM before computing the
wrap-around, so the outcome is independent of any stale snapshot stored in
`focusableElements`, and afterwards the stored snapshot equals the container's
current list. -/
theorem tab_resnapshots_focusables (o : FocusTrapOptions) (st : TrapState)
    (d : TrapDom) (e : KeyEvent) (l : List Nat)
    (ha : st.isActive = true) (hk : e.key = "Tab") :
    handleKeyDown o { st with focusableElements := l } d e = handleKeyDown o st d e ∧
    (handleKeyDown o st d e).state.focusableElements = d.focusables := by
  have hke : ("Tab" : String) ≠ "Escape" := by decide
  rcases e with ⟨key, shift⟩
  simp only [KeyEvent.key] at hk
  subst hk
  rcases st with ⟨sa, sp, sf, sl, sc⟩
  simp only [TrapState.isActive] at ha
  subst ha
  rcases d with ⟨dp, ae, fl⟩
  rcases fl with _ | ⟨a, as⟩ <;>
    constructor <;>
    · simp only [handleKeyDown, hke, focusElem]
      split_ifs <;> simp_all

/-- Closed witness for `tab_resnapshots_focusables`: the trap holds the stale
snapshot `[1]` (and is also run with stale snapshot `[8, 9]`) while the
container currently has focusables `[1, 2]`. -/
theorem tab_resnapshots_focusables_witness :
    (handleKeyDown { container := 5 }
        { ({ isActive := true, focusableElements := [1] } : TrapState) with
            focusableElements := [8, 9] }
        ⟨true, 2, [1, 2]⟩ ⟨"Tab", false⟩
      = handleKeyDown { container := 5 }
        { isActive := true, focusableElements := [1] } ⟨true, 2, [1, 2]⟩
        ⟨"Tab", false⟩) ∧
    (handleKeyDown { container := 5 }
        { isActive := true, focusableElements := [1] } ⟨true, 2, [1, 2]⟩
        ⟨"Tab", false⟩).state.focusableElements = [1, 2] :=
  tab_resnapshots_focusables { container := 5 }
    { isActive := true, focusableElements := [1] } ⟨true, 2, [1, 2]⟩
    ⟨"Tab", false⟩ [8, 9] rfl rfl

/-- C1 counterexample: with default options, `destroy()` called from the open
state leaves the public `isOpen` getter reporting `true` — not `false` as the
claim states — for the modal and the drawer alike (their `destroy()` bodies
never reset the flag), even though the backdrop node is removed from the
document synchronously. -/
theorem destroy_isOpen_counterexample :
    (destroyM {} (openM {} initModal)).isOpen = true ∧
    (destroyD {} (openD {} initDrawer)).isOpen = true ∧
    (destroyM {} (openM {} initModal)).docBackdrops = [] ∧
    (destroyD {} (openD {} initDrawer)).docBackdrops = [] := by
  decide

/-- C1 (amended): for modal and drawer, `destroy()` synchronously removes any
backdrop node from the document (it is a plain function with no animation
timer), but leaves `isOpen` exactly as it was: `false` when destroyed from the
closed state, still `true` when destroyed from the open state. -/
theorem destroy_removes_backdrop_keeps_isOpen :
    (∀ (o : ModalOptions) (s : ModalState), ModalReach o s →
      (destroyM o s).docBackdrops = [] ∧ (destroyM o s).isOpen = s.isOpen) ∧
    (∀ (o : DrawerOptions) (s : DrawerState), DrawerReach o s →
      (destroyD o s).docBackdrops = [] ∧ (destroyD o s).isOpen = s.isOpen) := by
  constructor
  · intro o s hr
    rcases modalInv_reach o s hr with ⟨h1, h2, -⟩
    refine ⟨?_, by cases hs : s.isOpen <;> simp [destroyM, hs]⟩
    cases hs : s.isOpen with
    | false =>
      have hbd : s.backdropElement = none := by
        by_contra hne
        exact absurd (h1.mp hne).1 (by simp [hs])
      have hdoc : s.docBackdrops = [] := by
        rcases h2 with h2 | h2
        · rw [h2, hbd]; rfl
        · exact h2
      simp [destroyM, hs, hdoc]
    | true =>
      cases hbd : s.backdropElement with
      | none =>
        have hdoc : s.docBackdrops = [] := by
          rcases h2 with h2 | h2
          · rw [h2, hbd]; rfl
          · exact h2
        simp [destroyM, hs, hbd, hdoc]
      | some id =>
        rcases h2 with h2 | h2 <;> simp_all [destroyM, hs, hbd, h2]
  · intro o s hr
    rcases drawerInv_reach o s hr with ⟨h1, h2⟩
    refine ⟨?_, by cases hs : s.isOpen <;> simp [destroyD, hs]⟩
    cases hs : s.isOpen with
    | false =>
      have hbd : s.backdropElement = none := by
        by_contra hne
        exact absurd (h1.mp hne).1 (by simp [hs])
      have hdoc : s.docBackdrops = [] := by
        rcases h2 with h2 | h2
        · rw [h2, hbd]; rfl
        · exact h2
      simp [destroyD, hs, hdoc]
    | true =>
      cases hbd : s.backdropElement with
      | none =>
        have hdoc : s.docBackdrops = [] := by
          rcases h2 with h2 | h2
          · rw [h2, hbd]; rfl
          · exact h2
        simp [destroyD, hs, hbd, hdoc]
      | some id =>
        rcases h2 with h2 | h2 <;> simp_all [destroyD, hs, hbd, h2]

/-- Closed witness for `destroy_removes_backdrop_keeps_isOpen`: destroying a
freshly opened default modal. -/
theorem destroy_removes_backdrop_keeps_isOpen_witness :
    (destroyM {} (openM {} initModal)).docBackdrops = [] ∧
    (destroyM {} (openM {} initModal)).isOpen = (openM {} initModal).isOpen :=
  destroy_removes_backdrop_keeps_isOpen.1 {} (openM {} initModal)
    (ModalReach.openStep ModalReach.init)

/-- C2 counterexample: with backdrop enabled, in the interval after `close()`
is invoked but before its animation timer resolves, the modal reports
`isOpen = false` while the internal `backdropElement` is still held (`close()`
flips the flag at entry and only the timer callback removes and clears the
backdrop), refuting the claimed "non-null iff `isOpen`" invariant at that
reachable point. -/
theorem backdrop_invariant_counterexample :
    (closeStartM {} (openM {} initModal)).isOpen = false ∧
    (closeStartM {} (openM {} initModal)).backdropElement = some 0 ∧
    (closeStartM {} (openM {} initModal)).closePending = true := by
  decide

/-- C2 (amended): in every state reachable by complete public operations —
each `close()` awaited to completion, so excluding the window while a close
animation timer is pending — the internal `backdropElement` is non-null iff
the modal is open with backdrop enabled. -/
theorem backdrop_iff_open_quiescent (o : ModalOptions) (s : ModalState)
    (hr : ModalReach o s) :
    s.backdropElement ≠ none ↔ (s.isOpen = true ∧ o.backdrop = true) :=
  (modalInv_reach o s hr).1

/-- Closed witness for `backdrop_iff_open_quiescent`: a freshly opened default
modal holds a backdrop reference. -/
theorem backdrop_iff_open_quiescent_witness :
    (openM {} initModal).backdropElement ≠ none ↔
      ((openM {} initModal).isOpen = true ∧ ({} : ModalOptions).backdrop = true) :=
  backdrop_iff_open_quiescent {} (openM {} initModal)
    (ModalReach.openStep ModalReach.init)

/-- C6: with `trapFocus: true` and `closeOnEscape: true`, `open()` does not
register the document-level Escape keydown listener (the guard is
`closeOnEscape && !trapFocus`), so one Escape keypress while open reaches
`close()` exactly once — through the trap's `onEscape` callback. -/
theorem escape_single_close (o : ModalOptions) (s : ModalState)
    (ht : o.trapFocus = true) (hc : o.closeOnEscape = true)
    (hr : ModalReach o s) (hs : s.isOpen = false) :
    (openM o s).docEscListener = false ∧ escapeCloseCalls o (openM o s) = 1 := by
  have hesc : s.docEscListener = false := (modalInv_reach o s hr).2.2 ht
  cases hb : o.backdrop <;>
    simp [openM, escapeCloseCalls, closeStartM, hs, ht, hc, hb, hesc]

/-- Closed witness for `escape_single_close`: opening a fresh default modal
(whose options have `trapFocus := true` and `closeOnEscape := true`). -/
theorem escape_single_close_witness :
    (openM {} initModal).docEscListener = false ∧
      escapeCloseCalls {} (openM {} initModal) = 1 :=
  escape_single_close {} initModal rfl rfl ModalReach.init rfl

/-- C7 counterexample: with 3 enabled items, after `open()` resets the focused
index to −1, the third ArrowDown press leaves the focused index at 2 — it does
not wrap back to 0 on the third press as the claim states. -/
theorem arrowdown_third_press_counterexample :
    (menuNavKey (menuNavKey (menuNavKey (openDrop 3 initDropdown)
        "ArrowDown") "ArrowDown") "ArrowDown").focusedIndex = 2 ∧
    ¬ (menuNavKey (menuNavKey (menuNavKey (openDrop 3 initDropdown)
        "ArrowDown") "ArrowDown") "ArrowDown").focusedIndex = 0 := by
  decide

/-- C7 (amended): with 3 enabled items, after `open()` (focused index −1)
successive ArrowDown presses focus indices 0, 1, 2, and the wraparound back to
0 occurs on the fourth press. -/
theorem arrowdown_cycle_wraps_fourth :
    (openDrop 3 initDropdown).focusedIndex = -1 ∧
    (menuNavKey (openDrop 3 initDropdown) "ArrowDown").focusedIndex = 0 ∧
    (menuNavKey (menuNavKey (openDrop 3 initDropdown) "ArrowDown")
      "ArrowDown").focusedIndex = 1 ∧
    (menuNavKey (menuNavKey (menuNavKey (openDrop 3 initDropdown) "ArrowDown")
      "ArrowDown") "ArrowDown").focusedIndex = 2 ∧
    (menuNavKey (menuNavKey (menuNavKey (menuNavKey (openDrop 3 initDropdown)
      "ArrowDown") "ArrowDown") "ArrowDown") "ArrowDown").focusedIndex = 0 := by
  decide

/-- C9: `lockScroll()` captures `window.scrollY` and the body's full inline
style string before pinning the body, and its unlock closure restores exactly
the captured inline style string and re-applies `scrollTo(0, savedY)`, so a
lock immediately followed by its unlock returns the body's inline style and
the scroll position to their pre-lock values. -/
theorem lock_unlock_roundtrip (p : PageState) :
    (lockScroll p).1.scrollY = p.scrollY ∧
    (lockScroll p).1.originalStyle = p.bodyCssText ∧
    (lockScroll p).2.bodyCssText = pinnedBodyCss p.scrollY ∧
    applyUnlock (lockScroll p).1 (lockScroll p).2 = p := by
  rcases p with ⟨y, css⟩
  exact ⟨rfl, rfl, rfl, rfl⟩

/-- C5: the first `setStyle` on an (element, property) pair records the
pre-existing inline value and a later `setStyle` on the same pair does not
overwrite that record; `restore` writes every recorded original back (removing
the property when the recorded original was the empty string) and clears the
record, so `setStyle(el, p, v1)`, `setStyle(el, p, v2)`, `restore(el)` leaves
the property reading exactly as before the first `setStyle`, and a second
`restore(el)` changes neither the manager nor the document (and, being a total
function, cannot throw).  The `keyNodup` hypotheses are the unique-key
invariants a real `Map` and `CSSStyleDeclaration` maintain. -/
theorem style_restore_spec (m : StyleMgr) (d : DomStyles) (el : Nat)
    (p v1 v2 : String)
    (hp : alGet p ((alGet el m).getD []) = none)
    (hm : keyNodup m) (hd : keyNodup (domGet d el)) :
    alGet p ((alGet el (setTwiceState m d el p v1 v2).1).getD [])
        = some (getPropertyValue (domGet d el) p) ∧
    getPropertyValue (domGet (setTwiceState m d el p v1 v2).2 el) p = v2 ∧
    getPropertyValue
        (domGet (restore (setTwiceState m d el p v1 v2).1
          (setTwiceState m d el p v1 v2).2 el).2 el) p
      = getPropertyValue (domGet d el) p ∧
    (getPropertyValue (domGet d el) p = "" →
      alGet p (domGet (restore (setTwiceState m d el p v1 v2).1
        (setTwiceState m d el p v1 v2).2 el).2 el) = none) ∧
    restore
        (restore (setTwiceState m d el p v1 v2).1
          (setTwiceState m d el p v1 v2).2 el).1
        (restore (setTwiceState m d el p v1 v2).1
          (setTwiceState m d el p v1 v2).2 el).2 el
      = restore (setTwiceState m d el p v1 v2).1
          (setTwiceState m d el p v1 v2).2 el := by
  have hrecget : alGet el (saveStyle m d el p)
      = some (((alGet el m).getD []) ++ [(p, getPropertyValue (domGet d el) p)]) :=
    alGet_saveStyle m d el p hp
  have hrec : alGet p (((alGet el m).getD [])
        ++ [(p, getPropertyValue (domGet d el) p)])
      = some (getPropertyValue (domGet d el) p) := by
    rw [← alSet_of_alGet_none p _ _ hp]
    exact alGet_alSet_self p _ _
  have hmgr : (setTwiceState m d el p v1 v2).1 = saveStyle m d el p := by
    show saveStyle (saveStyle m d el p) (setStyle m d el p v1).2 el p
        = saveStyle m d el p
    exact saveStyle_already _ _ _ _ _ hrecget (by rw [hrec]; rfl)
  have hdom2 : domGet (setTwiceState m d el p v1 v2).2 el
      = alSet p v2 (alSet p v1 (domGet d el)) := by
    show domGet (alSet el (alSet p v2
        (domGet (alSet el (alSet p v1 (domGet d el)) d) el))
        (alSet el (alSet p v1 (domGet d el)) d)) el = _
    rw [domGet_alSet, domGet_alSet]
  have hres : restore (setTwiceState m d el p v1 v2).1
        (setTwiceState m d el p v1 v2).2 el
      = (alDelete el (saveStyle m d el p),
         alSet el ((((alGet el m).getD [])
             ++ [(p, getPropertyValue (domGet d el) p)]).foldl
             restoreEntry (domGet (setTwiceState m d el p v1 v2).2 el))
           (setTwiceState m d el p v1 v2).2) := by
    rw [hmgr]
    simp only [restore, hrecget]
  have hfold : ((((alGet el m).getD [])
        ++ [(p, getPropertyValue (domGet d el) p)]).foldl
        restoreEntry (domGet (setTwiceState m d el p v1 v2).2 el))
      = restoreEntry (((alGet el m).getD []).foldl restoreEntry
          (domGet (setTwiceState m d el p v1 v2).2 el))
          (p, getPropertyValue (domGet d el) p) := by
    rw [List.foldl_append]
    rfl
  have hnodupX : keyNodup (((alGet el m).getD []).foldl restoreEntry
      (domGet (setTwiceState m d el p v1 v2).2 el)) := by
    apply keyNodup_foldl_restoreEntry
    rw [hdom2]
    exact keyNodup_alSet _ _ _ (keyNodup_alSet _ _ _ hd)
  have hdel : alGet el (alDelete el (saveStyle m d el p)) = none :=
    alGet_alDelete_self el _ (keyNodup_saveStyle m d el p hm)
  refine ⟨?_, ?_, ?_, ?_, ?_⟩
  · rw [hmgr, hrecget]
    simpa using hrec
  · rw [hdom2]
    simp [getPropertyValue, alGet_alSet_self]
  · rw [hres]
    show getPropertyValue (domGet (alSet el _ _) el) p = _
    rw [domGet_alSet, hfold]
    by_cases horig : getPropertyValue (domGet d el) p = ""
    · rw [horig]
      simp only [restoreEntry, horig]
      simp [getPropertyValue, alGet_alDelete_self p _ hnodupX]
    · simp only [restoreEntry, if_neg horig]
      simp [getPropertyValue, alGet_alSet_self]
  · intro horig
    rw [hres]
    show alGet p (domGet (alSet el _ _) el) = none
    rw [domGet_alSet, hfold]
    simp only [restoreEntry, horig]
    simpa using alGet_alDelete_self p _ hnodupX
  · rw [hres]
    simp only [restore, hdel]

/-- Closed witness for `style_restore_spec`: element 0 starts with inline
`opacity: 0.7`; `setStyle 0.5` then `setStyle 0.9` then `restore` brings
`opacity` back to `0.7`, and a second `restore` is the identity. -/
theorem style_restore_spec_witness :
    getPropertyValue
        (domGet (restore
          (setTwiceState [] [(0, [("opacity", "0.7")])] 0 "opacity" "0.5" "0.9").1
          (setTwiceState [] [(0, [("opacity", "0.7")])] 0 "opacity" "0.5" "0.9").2
          0).2 0) "opacity" = "0.7" ∧
    restore
        (restore
          (setTwiceState [] [(0, [("opacity", "0.7")])] 0 "opacity" "0.5" "0.9").1
          (setTwiceState [] [(0, [("opacity", "0.7")])] 0 "opacity" "0.5" "0.9").2
          0).1
        (restore
          (setTwiceState [] [(0, [("opacity", "0.7")])] 0 "opacity" "0.5" "0.9").1
          (setTwiceState [] [(0, [("opacity", "0.7")])] 0 "opacity" "0.5" "0.9").2
          0).2 0
      = restore
          (setTwiceState [] [(0, [("opacity", "0.7")])] 0 "opacity" "0.5" "0.9").1
          (setTwiceState [] [(0, [("opacity", "0.7")])] 0 "opacity" "0.5" "0.9").2
          0 :=
  have h := style_restore_spec [] [(0, [("opacity", "0.7")])] 0 "opacity" "0.5" "0.9"
    rfl (by decide) (by decide)
  ⟨h.2.2.1.trans (by decide), h.2.2.2.2⟩

end Atlas
